import Mathlib

/-!
# Verification of the bilibili-analyzer subtitle pipeline

Shallow embedding, in Lean 4, of the core of the `bilibili-analyzer`
repository: the credential cache (`utilities.py`), the timestamp-stripping
utility (`utilities.py: remove_timestamps`), the LLM two-section reply
parser, the per-video subtitle fallback pipeline
(`bilibili_client.py: get_video_text_content`) and the batch orchestrator
(`bilibili_client.py: get_all_user_subtitles`).

External collaborators (network calls, subprocesses, the filesystem) are
represented by explicit environment records; every piece of control flow,
string manipulation and arithmetic is translated directly from the Python
source.  Machine reals (`time.time()`) are modelled as integer seconds,
which is exact for the 30-day-expiry comparisons the code performs.
-/

namespace BA

/-! ## Generic list/string helpers (Python `in`, `split`, `strip`, dicts) -/

/-- First value bound to key `k` in an association list (Python `dict.get`). -/
def lookupA {β : Type} (k : String) : List (String × β) → Option β
  | [] => none
  | (k', v) :: t => if k' = k then some v else lookupA k t

/-- Python `d[k] = v`: replace the binding of `k` if present, else append. -/
def updateA {β : Type} (k : String) (v : β) : List (String × β) → List (String × β)
  | [] => [(k, v)]
  | (k', v') :: t => if k' = k then (k, v) :: t else (k', v') :: updateA k v t

/-- Python `d.pop(k, None)`: drop the binding of `k`. -/
def eraseA {β : Type} (k : String) : List (String × β) → List (String × β)
  | [] => []
  | (k', v') :: t => if k' = k then t else (k', v') :: eraseA k t

/-- Index of the first occurrence of `needle` in `hay` (Python `str.find`). -/
def findSub (needle : List Char) : List Char → Option Nat
  | [] => if needle.isPrefixOf ([] : List Char) then some 0 else none
  | c :: t =>
    if needle.isPrefixOf (c :: t) then some 0
    else (findSub needle t).map (· + 1)

/-- Python `needle in hay` on strings. -/
def containsSub (needle hay : List Char) : Bool :=
  (findSub needle hay).isSome

/-- Python `hay.split(needle, 1)` restricted to the two parts:
before the first occurrence, and after it.  When `needle` does not occur
the second component is `none`. -/
def splitFirst (needle hay : List Char) : List Char × Option (List Char) :=
  match findSub needle hay with
  | some i => (hay.take i, some (hay.drop (i + needle.length)))
  | none => (hay, none)

/-- Python's whitespace class: the ASCII part of `\s` (and of `str.strip`). -/
def isSpaceC (c : Char) : Bool :=
  c = ' ' ∨ c = '\t' ∨ c = '\n' ∨ c = '\r' ∨ c = '\x0b' ∨ c = '\x0c'

/-- ASCII decimal digit, the `\d` class. -/
def isDigitC (c : Char) : Bool :=
  '0' ≤ c ∧ c ≤ '9'

/-- Remove trailing characters satisfying `isSpaceC` (Python `str.rstrip`). -/
def dropTrail : List Char → List Char
  | [] => []
  | c :: t => if dropTrail t = [] ∧ isSpaceC c then [] else c :: dropTrail t

/-- Python `str.strip()`. -/
def stripC (l : List Char) : List Char :=
  dropTrail (l.dropWhile isSpaceC)

/-! ## Credential cache (`utilities.py`)

The persisted credential file `credentials.json` maps a browser name to a
record `\x7bcookies, timestamp\x7d`.  A store value of `none` models a missing
*or unparsable* file (both produce the same fallbacks in the source, which
wraps `json.loads` in a bare `except`).  `time.time()` is modelled as an
integer number of seconds. -/

/-- One persisted credential record: named secrets plus creation time. -/
structure CredRecord where
  cookies : List (String × String)
  timestamp : Int
  deriving DecidableEq, Repr

/-- The parsed content of `credentials.json`; `none` = missing/corrupt file. -/
abbrev CredStore : Type := Option (List (String × CredRecord))

/-- 30 days in seconds, the fixed TTL used by `utilities.py`. -/
def ttlSeconds : Int := 30 * 24 * 3600

/-- `utilities.load_cached_credentials(browser)` for a specific browser:
returns the stored cookie mapping unless the record is missing, falsy, or
older than 30 days (`(time.time() - timestamp) > 30 * 24 * 3600`). -/
def load_cached_credentials (store : CredStore) (browser : String) (now : Int) :
    Option (List (String × String)) :=
  match store with
  | none => none
  | some creds =>
    match lookupA browser creds with
    | none => none
    | some rec =>
      if now - rec.timestamp > ttlSeconds then none
      else some rec.cookies

/-- `utilities.load_cached_credentials()` with no browser argument: the raw
parsed mapping, `\x7b\x7d` when the file is missing or corrupt.  No expiry check is
applied on this path. -/
def load_all_credentials (store : CredStore) : List (String × CredRecord) :=
  match store with
  | none => []
  | some creds => creds

/-- `utilities.save_credentials(browser, cookies)`: reload the whole mapping,
overwrite this browser's entry with fresh cookies and the current time, and
write the result back.  Returns the newly written file content. -/
def save_credentials (store : CredStore) (browser : String)
    (cookies : List (String × String)) (now : Int) : List (String × CredRecord) :=
  updateA browser ⟨cookies, now⟩ (load_all_credentials store)

/-- Environment for `utilities.get_browser_cookies`: the module-level
in-memory cookie-file cache, the filesystem's view of those paths, the
persisted store, the clock, and the result of the external
`get_bilibili_cookies` extractor (empty list = nothing found). -/
structure CookieEnv where
  memCache : List (String × String)
  fileExists : String → Bool
  store : CredStore
  now : Int
  extracted : List (String × String)

/-- How `get_browser_cookies` obtained (or failed to obtain) a cookie file. -/
inductive CookieSource where
  | memCached
  | diskCached
  | freshExtraction
  | noCookies
  deriving DecidableEq, Repr

/-- The disk-cache guard of `get_browser_cookies`: a parsable store holding a
record for this browser whose cookies are truthy and whose age is within the
TTL (`cookies and (time.time() - timestamp) <= 30 * 24 * 3600`). -/
def diskCacheValid (store : CredStore) (browser : String) (now : Int) : Bool :=
  match store with
  | none => false
  | some creds =>
    match lookupA browser creds with
    | none => false
    | some rec => rec.cookies ≠ [] ∧ now - rec.timestamp ≤ ttlSeconds

/-- `utilities.get_browser_cookies(browser, force_refresh)`.  Returns where
the materialized cookie file came from, paired with whether the external
cookie extractor was invoked. -/
def get_browser_cookies (env : CookieEnv) (browser : String) (force_refresh : Bool) :
    CookieSource × Bool :=
  let cache := if force_refresh then eraseA browser env.memCache else env.memCache
  let memHit : Bool :=
    match lookupA browser cache with
    | some path => env.fileExists path && !force_refresh
    | none => false
  if memHit then (.memCached, false)
  else if ¬ force_refresh ∧ diskCacheValid env.store browser env.now = true then
    (.diskCached, false)
  else if env.extracted = [] then (.noCookies, true)
  else (.freshExtraction, true)

/-! ## Identifier normalization (`utilities.ensure_bilibili_url` and
`bilibili_client.BilibiliClient._extract_bvid`) -/

/-- `utilities.ensure_bilibili_url`: assemble a full video URL from a BVID. -/
def ensure_bilibili_url (identifier : String) : String :=
  if ((("BV").data).isPrefixOf identifier.data ∨ (("bv").data).isPrefixOf identifier.data)
      ∧ 12 ≤ identifier.data.length then
    ("https://www.bilibili.com/video/") ++ identifier
  else identifier

/-- Characters CPython's `urlsplit` accepts inside a URL scheme. -/
def isSchemeChar (c : Char) : Bool :=
  c.isAlpha ∨ c.isDigit ∨ c = '+' ∨ c = '-' ∨ c = '.'

/-- Split at the first occurrence of `c`: contents before it, and the rest
after it when present. -/
def splitChar (c : Char) (l : List Char) : List Char × Option (List Char) :=
  match l.dropWhile (· ≠ c) with
  | [] => (l, none)
  | _ :: t => (l.takeWhile (· ≠ c), some t)

/-- `urlsplit`'s `_WHATWG_C0_CONTROL_OR_SPACE` class: the codepoints
`0x00`-`0x20`, stripped from the front of the URL before parsing. -/
def isC0OrSpace (c : Char) : Bool :=
  c ≤ ' '

/-- The complement of `urlsplit`'s `_UNSAFE_URL_BYTES_TO_REMOVE`: tab, CR
and LF are removed from the whole URL before parsing. -/
def notUnsafeByte (c : Char) : Bool :=
  c ≠ '\t' ∧ c ≠ '\r' ∧ c ≠ '\n'

/-- `urlsplit` stage 1: strip a leading well-formed `scheme:`. -/
def schemeSplit (url : List Char) : List Char :=
  match splitChar ':' url with
  | (scheme, some r) => if scheme ≠ [] ∧ scheme.all isSchemeChar then r else url
  | (_, none) => url

/-- `urlsplit` stage 2: strip a leading `//netloc` up to the next
`/`, `?` or `#`. -/
def netlocSplit (rest : List Char) : List Char :=
  match rest with
  | '/' :: '/' :: r => r.dropWhile (fun c => c ≠ '/' ∧ c ≠ '?' ∧ c ≠ '#')
  | _ => rest

/-- `urlparse`'s final step: strip the `;params` of the last path segment. -/
def paramsSplit (rest : List Char) : List Char :=
  (rest.reverse.dropWhile (· ≠ '/')).reverse
    ++ ((rest.reverse.takeWhile (· ≠ '/')).reverse).takeWhile (· ≠ ';')

/-- The `path` component of `urllib.parse.urlparse`, for the absolute URLs
this client builds: left-strip C0-control/space characters, remove every
tab, CR and LF, then strip the scheme, the `//netloc`, any `#fragment`,
any `?query`, and the `;params` of the last path segment. -/
def urlparse_path (url : List Char) : List Char :=
  paramsSplit ((splitChar '?' ((splitChar '#' (netlocSplit (schemeSplit
    ((url.dropWhile isC0OrSpace).filter notUnsafeByte)))).1)).1)

/-- Python `path.rstrip('/')`. -/
def rstripSlash (l : List Char) : List Char :=
  (l.reverse.dropWhile (· = '/')).reverse

/-- Python `path.split('/')[-1]`. -/
def lastSlashComponent (l : List Char) : List Char :=
  (l.reverse.takeWhile (· ≠ '/')).reverse

/-- The candidate BVID `_extract_bvid` reads off a URL:
`urlparse(identifier).path.rstrip('/').split('/')[-1]`. -/
def candidateBvid (identifier : String) : List Char :=
  lastSlashComponent (rstripSlash (urlparse_path identifier.data))

/-- `BilibiliClient._extract_bvid`: accept a bare BVID, otherwise take the
last component of the URL path (after `rstrip('/')`) and demand that it
start with `BV`; `none` models the `ValueError` raised otherwise. -/
def _extract_bvid (identifier : String) : Option String :=
  if (("BV").data).isPrefixOf identifier.data ∨ (("bv").data).isPrefixOf identifier.data then
    some identifier
  else if (("BV").data).isPrefixOf (candidateBvid identifier) then
    some (String.mk (candidateBvid identifier))
  else none

/-! ## `utilities.remove_timestamps`

The Python function applies four `re.sub(pattern, "", text, flags=MULTILINE)`
passes, collapses runs of three-or-more newlines to exactly one blank line,
and strips the result.  Each pattern is deterministic under backtracking
(every `\s*` / `\d+` is followed by a character outside its class, and each
trailing `\s*\n` resolves to "consume the maximal whitespace run up to and
including its last newline"), so the matchers below are written as plain
greedy scanners. -/

/-- Consume one expected character. -/
def expectC (c : Char) : List Char → Option (List Char)
  | x :: t => if x = c then some t else none
  | [] => none

/-- Consume an expected literal string. -/
def expectS (s : List Char) (l : List Char) : Option (List Char) :=
  if s.isPrefixOf l then some (l.drop s.length) else none

/-- Consume exactly `n` ASCII digits (`\d\x7bn\x7d`). -/
def digitsN : Nat → List Char → Option (List Char)
  | 0, l => some l
  | n + 1, x :: t => if isDigitC x then digitsN n t else none
  | _ + 1, [] => none

/-- Consume one-or-more digits, maximally (`\d+` before a non-digit). -/
def digits1 (l : List Char) : Option (List Char) :=
  match l.takeWhile isDigitC with
  | [] => none
  | _ => some (l.dropWhile isDigitC)

/-- `\s*\n` in the middle of a pattern whose continuation starts with a
digit: the maximal whitespace run must be nonempty and end with `'\n'`. -/
def wsEndNl (l : List Char) : Option (List Char) :=
  let w := l.takeWhile isSpaceC
  if w ≠ [] ∧ w.getLast? = some '\n' then some (l.dropWhile isSpaceC) else none

/-- `\s*\n` at the end of a pattern: consume the maximal whitespace run up
to and including its last `'\n'`; fail when the run holds no newline. -/
def wsLastNl (l : List Char) : Option (List Char) :=
  let w := l.takeWhile isSpaceC
  let rest := l.dropWhile isSpaceC
  let afterNl := w.reverse.takeWhile (· ≠ '\n')
  if afterNl.length = w.length then none
  else some (afterNl.reverse ++ rest)

/-- `\d\x7b2\x7d:\d\x7b2\x7d:\d\x7b2\x7d,\d\x7b3\x7d` (SRT timestamp). -/
def timeSRT (l : List Char) : Option (List Char) := do
  let l ← digitsN 2 l
  let l ← expectC ':' l
  let l ← digitsN 2 l
  let l ← expectC ':' l
  let l ← digitsN 2 l
  let l ← expectC ',' l
  digitsN 3 l

/-- `\d\x7b2\x7d:\d\x7b2\x7d[:.]\d\x7b3\x7d` (VTT-style timestamp). -/
def timeVTT (l : List Char) : Option (List Char) := do
  let l ← digitsN 2 l
  let l ← expectC ':' l
  let l ← digitsN 2 l
  let l ←
    match l with
    | x :: t => if x = ':' ∨ x = '.' then some t else none
    | [] => none
  digitsN 3 l

/-- Whisper pattern `\[\d\x7b2\x7d:\d\x7b2\x7d\.\d\x7b3\x7d\s*-->\s*\d\x7b2\x7d:\d\x7b2\x7d\.\d\x7b3\x7d\]\s*`. -/
def matchP1 (l : List Char) : Option (List Char) := do
  let l ← expectC '[' l
  let l ← digitsN 2 l
  let l ← expectC ':' l
  let l ← digitsN 2 l
  let l ← expectC '.' l
  let l ← digitsN 3 l
  let l ← expectS (("-->").data) (l.dropWhile isSpaceC)
  let l ← digitsN 2 (l.dropWhile isSpaceC)
  let l ← expectC ':' l
  let l ← digitsN 2 l
  let l ← expectC '.' l
  let l ← digitsN 3 l
  let l ← expectC ']' l
  some (l.dropWhile isSpaceC)

/-- SRT pattern `^\d+\s*\n\d\x7b2\x7d:\d\x7b2\x7d:\d\x7b2\x7d,\d\x7b3\x7d\s*-->\s*\d\x7b2\x7d:\d\x7b2\x7d:\d\x7b2\x7d,\d\x7b3\x7d\s*\n`. -/
def matchP2 (l : List Char) : Option (List Char) := do
  let l ← digits1 l
  let l ← wsEndNl l
  let l ← timeSRT l
  let l ← expectS (("-->").data) (l.dropWhile isSpaceC)
  let l ← timeSRT (l.dropWhile isSpaceC)
  wsLastNl l

/-- VTT pattern `^\d\x7b2\x7d:\d\x7b2\x7d[:.]\d\x7b3\x7d\s*-->\s*\d\x7b2\x7d:\d\x7b2\x7d[:.]\d\x7b3\x7d\s*\n`. -/
def matchP3 (l : List Char) : Option (List Char) := do
  let l ← timeVTT l
  let l ← expectS (("-->").data) (l.dropWhile isSpaceC)
  let l ← timeVTT (l.dropWhile isSpaceC)
  wsLastNl l

/-- Bilibili API pattern `\[\d+\.\d+\]\s*`. -/
def matchP4 (l : List Char) : Option (List Char) := do
  let l ← expectC '[' l
  let l ← digits1 l
  let l ← expectC '.' l
  let l ← digits1 l
  let l ← expectC ']' l
  some (l.dropWhile isSpaceC)

/-- A matcher that may only fire at the start of a line (`^` under
`re.MULTILINE`). -/
def anchored (m : List Char → Option (List Char)) (atStart : Bool)
    (l : List Char) : Option (List Char) :=
  if atStart then m l else none

/-- A matcher that may fire anywhere. -/
def unanchored (m : List Char → Option (List Char)) (_ : Bool)
    (l : List Char) : Option (List Char) :=
  m l

/-- `re.sub(pattern, "", ...)`: left-to-right scan, non-overlapping matches,
each matched span deleted.  `atStart` tracks whether the current position
follows a newline (or is position 0) in the *original* string, which is what
`re.MULTILINE` anchors against.  The fuel argument is always instantiated
with the input length, which suffices because every matcher consumes at
least one character. -/
def subGo (m : Bool → List Char → Option (List Char)) :
    Nat → Bool → List Char → List Char
  | 0, _, l => l
  | _ + 1, _, [] => []
  | fuel + 1, atStart, c :: cs =>
    match m atStart (c :: cs) with
    | some rest =>
      let n := (c :: cs).length - rest.length
      if n = 0 then c :: subGo m fuel (c = '\n') cs
      else subGo m fuel (((c :: cs).take n).getLast? = some '\n') rest
    | none => c :: subGo m fuel (c = '\n') cs

/-- One full substitution pass over a string (position 0 is a line start). -/
def subPat (m : Bool → List Char → Option (List Char)) (l : List Char) : List Char :=
  subGo m l.length true l

/-- `re.sub(r"\n\x7b3,\x7d", "\n\n", ...)`: `k` counts pending consecutive
newlines; each maximal run of three or more is emitted as exactly two. -/
def collapseGo : Nat → List Char → List Char
  | k, [] => List.replicate (if 3 ≤ k then 2 else k) '\n'
  | k, c :: cs =>
    if c = '\n' then collapseGo (k + 1) cs
    else List.replicate (if 3 ≤ k then 2 else k) '\n' ++ c :: collapseGo 0 cs

/-- Collapse 3+ newline runs to a single blank line. -/
def collapseNl (l : List Char) : List Char :=
  collapseGo 0 l

/-- `utilities.remove_timestamps`: the four substitution passes in source
order, then newline collapsing, then `strip()`. -/
def remove_timestamps (s : String) : String :=
  String.mk (stripC (collapseNl
    (subPat (unanchored matchP4)
      (subPat (anchored matchP3)
        (subPat (anchored matchP2)
          (subPat (unanchored matchP1) s.data))))))

/-! ## Transcript post-processor reply parsing

`bilibili_client.get_video_text_content` (lines 747-769) and
`bilibili_client.retry_llm_processing` (lines 890-915) share this logic
verbatim: split the LLM reply on two literal section markers. -/

/-- The literal marker `CORRECTED_TRANSCRIPT:`. -/
def markerC : List Char := ("CORRECTED_TRANSCRIPT:").data

/-- The literal marker `KEY_CORRECTIONS:`. -/
def markerK : List Char := ("KEY_CORRECTIONS:").data

/-- Extract `(corrected_transcript, key_corrections)` from a raw LLM reply:
if both markers occur, take what follows the first `CORRECTED_TRANSCRIPT:`,
and if `KEY_CORRECTIONS:` occurs in that remainder split there and strip
both halves (otherwise both results stay empty); if either marker is
missing, the whole reply is the corrected transcript. -/
def parse_llm_sections (full : List Char) : List Char × List Char :=
  if containsSub markerC full ∧ containsSub markerK full then
    match splitFirst markerC full with
    | (_, some parts) =>
      if containsSub markerK parts then
        match splitFirst markerK parts with
        | (a, some b) => (stripC a, stripC b)
        | (_, none) => ([], [])
      else ([], [])
    | (_, none) => ([], [])
  else (full, [])

/-! ## Per-video pipeline (`BilibiliClient.get_video_text_content`)

The subtitle section of `get_video_text_content` (lines 525-829) drives the
three-resolver fallback.  Network, subprocess and filesystem collaborators
are abstracted into `PipelineEnv`; all branching is translated from the
source. -/

/-- External-world snapshot for one `get_video_text_content` call. -/
structure PipelineEnv where
  /-- Result of `_format_subtitles` (the Bilibili-API resolver); `none`
  collapses both "no subtitles" and an exception inside the API attempt,
  which the source treats identically (lines 527-543). -/
  apiSubtitles : Option String
  /-- Contents of the `*.vtt`/`*.srt` files already in `video_texts/<bvid>`
  before any download; the source reads the first one (lines 547-562). -/
  existingSubFiles : List String
  /-- Whether `download_with_ytdlp(download_type="subtitles")` returns
  without raising (lines 576-581). -/
  ytdlpSubtitlesOk : Bool
  /-- Subtitle-file contents found by the re-scan after a successful
  yt-dlp call (lines 583-601). -/
  filesAfterDownload : List String
  /-- Content of `subtitles_raw.txt` when that file exists. -/
  rawTranscript : Option String
  /-- Content of `subtitles.txt` when that file exists. -/
  correctedTranscript : Option String
  /-- Whether the audio download succeeds and leaves a non-empty file
  (lines 659-667). -/
  audioOk : Bool
  /-- Whether the whisper subprocess exits successfully and produces a
  transcript file (lines 691-716). -/
  whisperOk : Bool
  /-- The raw transcript whisper wrote (empty = empty file, which the
  source rejects, line 718). -/
  whisperText : String
  /-- The LLM reply; `none` models `llm.call` raising, which degrades to
  the uncorrected transcript (lines 792-798). -/
  llmResult : Option String
  deriving DecidableEq, Repr

/-- Observable outcome of one `get_video_text_content` call: the final
`subtitles` value (or the raised exception's message), plus which external
effects ran. -/
structure PipeOut where
  result : Except String (Option String)
  dlSubsCalled : Bool
  dlAudioCalled : Bool
  asrCalled : Bool
  llmCalled : Bool
  deriving Repr

/-- Python truthiness of an optional string. -/
def truthyOpt : Option String → Bool
  | some s => s ≠ ""
  | none => false

/-- The cached-transcript guard (lines 639-644): both transcript files
exist and have positive size. -/
def cachedPairReady (env : PipelineEnv) : Bool :=
  match env.rawTranscript, env.correctedTranscript with
  | some r, some c => r ≠ "" ∧ c ≠ ""
  | _, _ => false

/-- The message of the exception raised when every method failed
(lines 808-815). -/
def allFailedMsg (browser : Option String) : String :=
  match browser with
  | none => ("All subtitle extraction methods failed. Try using --browser option for authentication.")
  | some _ => ("All subtitle extraction methods failed despite authentication.")

/-- Step 3 of the pipeline (lines 632-815): reuse a cached corrected
transcript, otherwise download audio, run whisper, and post-process with
the LLM (degrading to the raw transcript when the LLM call fails). -/
def whisperStep (env : PipelineEnv) (browser : Option String) (dlSubs : Bool) : PipeOut :=
  if cachedPairReady env then
    match env.correctedTranscript with
    | some c => ⟨.ok (some (("## Whisper Transcript (Corrected)\n") ++ c)), dlSubs, false, false, false⟩
    | none => ⟨.ok none, dlSubs, false, false, false⟩
  else if ¬ env.audioOk then
    ⟨.error (allFailedMsg browser), dlSubs, true, false, false⟩
  else if ¬ env.whisperOk ∨ env.whisperText = "" then
    ⟨.error (allFailedMsg browser), dlSubs, true, true, false⟩
  else
    match env.llmResult with
    | some reply =>
      let corrected := (parse_llm_sections reply.data).1
      ⟨.ok (some (("## Whisper Transcript (Corrected)\n") ++ String.mk corrected)),
        dlSubs, true, true, true⟩
    | none =>
      ⟨.ok (some (("## Whisper Transcript\n") ++ env.whisperText)), dlSubs, true, true, true⟩

/-- The subtitle fallback chain of `get_video_text_content` for one video
(run with `include_subtitles=True`, as the batch exporter does):
API resolver, then existing subtitle files, then a yt-dlp subtitle
download — whose failure without a browser raises the authentication
error (lines 615-630) — then the whisper path. -/
def get_video_text_content (env : PipelineEnv) (browser : Option String)
    (bvid : String) : PipeOut :=
  if truthyOpt env.apiSubtitles then
    ⟨.ok env.apiSubtitles, false, false, false, false⟩
  else
    match env.existingSubFiles with
    | f :: _ =>
      if truthyOpt (some f) then ⟨.ok (some f), false, false, false, false⟩
      else whisperStep env browser false
    | [] =>
      if env.ytdlpSubtitlesOk then
        match env.filesAfterDownload with
        | g :: _ =>
          if truthyOpt (some g) then ⟨.ok (some g), true, false, false, false⟩
          else whisperStep env browser true
        | [] => whisperStep env browser true
      else
        match browser with
        | none =>
          ⟨.error (("Authentication required to download subtitles for ") ++ bvid ++ (".")),
            true, false, false, false⟩
        | some _ => whisperStep env browser true

/-! ## Batch orchestrator (`BilibiliClient.get_all_user_subtitles`)

Lines 1025-1257 of `bilibili_client.py`: fetch the user's video list, apply
the limit, drive the per-video pipeline in list order, classify subtitle
sources, format per-video blocks, and aggregate statistics.  The video
list (an external fetch) is supplied as input, each video paired with its
pipeline environment.  `pipelineRuns` records, in order, the videos for
which `get_video_text_content` was invoked. -/

/-- The fields of `VideoInfo` used by the batch exporter's header. -/
structure VideoDesc where
  bvid : String
  title : String
  description : String
  upload_time : String
  view_count : Nat
  coin_count : Nat
  like_count : Nat
  favorite_count : Nat
  share_count : Nat
  comment_count : Nat
  deriving DecidableEq, Repr

/-- Insert thousands separators into a reversed digit list. -/
def groupDigitsR : List Char → List Char
  | a :: b :: c :: d :: rest => a :: b :: c :: ',' :: groupDigitsR (d :: rest)
  | l => l

/-- Python `format(n, ",")` for a natural number. -/
def fmtComma (n : Nat) : String :=
  String.mk (groupDigitsR ((Nat.toDigits 10 n).reverse)).reverse

/-- `utilities.format_subtitle_header` for a `VideoInfo`-shaped record
(every attribute present, so the duck-typing fallbacks never fire). -/
def format_subtitle_header (v : VideoDesc) (includeDesc includeMeta : Bool) : String :=
  let base := [("# ") ++ v.title]
  let meta :=
    if includeMeta then
      [("BVID: ") ++ v.bvid,
       ("Upload Time: ") ++ v.upload_time,
       ("Views: ") ++ fmtComma v.view_count,
       ("Coins: ") ++ fmtComma v.coin_count,
       ("Likes: ") ++ fmtComma v.like_count,
       ("Favorites: ") ++ fmtComma v.favorite_count,
       ("Shares: ") ++ fmtComma v.share_count,
       ("Comments: ") ++ fmtComma v.comment_count]
    else []
  let desc :=
    if includeDesc ∧ v.description ≠ "" then
      ("\nDescription:") :: (v.description.data.splitOn '\n').map (fun ln => ("> ") ++ String.mk ln)
    else []
  String.intercalate ("\n") (base ++ meta ++ desc)

/-- `re.sub(r"^#+\s*<marker>.*$", "", ..., flags=MULTILINE)`: at a line
start, one-or-more `#`, optional whitespace, the literal marker, then the
rest of the line. -/
def matchHdr (marker : List Char) (l : List Char) : Option (List Char) := do
  let l ←
    match l.takeWhile (· = '#') with
    | [] => none
    | _ => some (l.dropWhile (· = '#'))
  let l ← expectS marker (l.dropWhile isSpaceC)
  some (l.dropWhile (· ≠ '\n'))

/-- Lines 1170-1185: drop markdown section-header lines, then strip
timestamps. -/
def cleanSubtitleBlock (subs : String) : String :=
  remove_timestamps (String.mk
    (subPat (anchored (matchHdr (("Whisper Transcript").data)))
      (subPat (anchored (matchHdr (("Video Subtitles").data))) subs.data)))

/-- The statistics dictionary.  `word_count` is `len(combined_text.split())`;
the source reports `total_tokens = word_count * 1.5` (a float), which is
determined by `word_count`.  The two early-return paths of the source build
a dictionary without the per-source counters; those fields are zero-filled
here. -/
structure BatchStats where
  total_videos : Nat
  processed_videos : Nat
  videos_with_subtitles : Nat
  src_api : Nat
  src_ytdlp : Nat
  src_whisper : Nat
  src_failed : Nat
  word_count : Nat
  deriving DecidableEq, Repr

/-- A fresh statistics record for `total` videos. -/
def zeroStats (total : Nat) : BatchStats :=
  ⟨total, 0, 0, 0, 0, 0, 0, 0⟩

/-- Lines 1153-1162: classify the subtitle source by substring probes of
the content, then bump that source's counter. -/
def bumpSource (stats : BatchStats) (subs : String) : BatchStats :=
  if containsSub (("Whisper Transcript").data) subs.data then
    { stats with src_whisper := stats.src_whisper + 1 }
  else if containsSub (("yt-dlp").data) subs.data then
    { stats with src_ytdlp := stats.src_ytdlp + 1 }
  else
    { stats with src_api := stats.src_api + 1 }

/-- Python `str.split()` word count: the number of maximal runs of
non-whitespace characters. -/
def countWords (l : List Char) : Nat :=
  (l.foldl
    (fun st c =>
      if isSpaceC c then (st.1, false)
      else (if st.2 then st.1 else st.1 + 1, true))
    ((0 : Nat), false)).1

/-- Accumulated state when the per-video loop finishes or aborts. -/
structure LoopOut where
  err : Option String
  stats : BatchStats
  blocks : List String
  runs : List String
  deriving Repr

/-- The per-video loop (lines 1135-1237).  A success appends a formatted
block and updates the counters; a missing subtitle appends the localized
placeholder; an error appends the failure placeholder — except that an
error message carrying `Authentication required` aborts the whole batch. -/
def processVideos (browser : Option String) (includeDesc includeMeta : Bool) :
    List (VideoDesc × PipelineEnv) → BatchStats → List String → List String → LoopOut
  | [], stats, blocks, runs => ⟨none, stats, blocks, runs⟩
  | (v, env) :: rest, stats, blocks, runs =>
    let out := get_video_text_content env browser v.bvid
    let runs := runs ++ [v.bvid]
    let header := format_subtitle_header v includeDesc includeMeta
    match out.result with
    | .ok subsOpt =>
      let stats := { stats with processed_videos := stats.processed_videos + 1 }
      match (if truthyOpt subsOpt then subsOpt else none) with
      | some subs =>
        let stats := bumpSource
          { stats with videos_with_subtitles := stats.videos_with_subtitles + 1 } subs
        let block := header ++ ("\n\n") ++ cleanSubtitleBlock subs
        processVideos browser includeDesc includeMeta rest stats (blocks ++ [block]) runs
      | none =>
        let stats := { stats with src_failed := stats.src_failed + 1 }
        let block := header ++ ("\n\n[无字幕]")
        processVideos browser includeDesc includeMeta rest stats (blocks ++ [block]) runs
    | .error e =>
      if containsSub (("Authentication required").data) e.data then
        ⟨some e, stats, blocks, runs⟩
      else
        let stats := { stats with src_failed := stats.src_failed + 1 }
        let block := header ++ ("\n\n[字幕获取失败: ") ++ e ++ ("]")
        processVideos browser includeDesc includeMeta rest stats (blocks ++ [block]) runs

/-- The batch exporter's observable outcome: the combined text and final
statistics (or the re-raised error), plus which videos the pipeline ran on. -/
structure BatchOut where
  result : Except String (String × BatchStats)
  pipelineRuns : List String
  deriving Repr

/-- Run the loop over an already-truncated list and assemble the result
(lines 1096-1251): join blocks with a blank-line separator and record the
word count behind the token estimate. -/
def runBatchLoop (browser : Option String) (includeDesc includeMeta : Bool)
    (vs : List (VideoDesc × PipelineEnv)) : BatchOut :=
  let lo := processVideos browser includeDesc includeMeta vs (zeroStats vs.length) [] []
  match lo.err with
  | some e => ⟨.error e, lo.runs⟩
  | none =>
    let combined := String.intercalate ("\n\n\n") lo.blocks
    ⟨.ok ((combined, { lo.stats with word_count := countWords combined.data })), lo.runs⟩

/-- `BilibiliClient.get_all_user_subtitles`: empty-list early return;
`limit` applied as in lines 1073-1089 (`if limit and limit > 0 and
limit < len(videos)` truncates; `elif limit == 0` returns immediately with
the full total recorded; anything else processes the whole list); then the
per-video loop. -/
def get_all_user_subtitles (videos : List (VideoDesc × PipelineEnv))
    (browser : Option String) (limit : Option Int)
    (includeDesc includeMeta : Bool) : BatchOut :=
  if videos = [] then ⟨.ok ((("", zeroStats 0))), []⟩
  else
    match limit with
    | some l =>
      if l ≠ 0 ∧ 0 < l ∧ l < (videos.length : Int) then
        runBatchLoop browser includeDesc includeMeta (videos.take l.toNat)
      else if l = 0 then
        ⟨.ok ((("", zeroStats videos.length))), []⟩
      else
        runBatchLoop browser includeDesc includeMeta videos
    | none => runBatchLoop browser includeDesc includeMeta videos

/-! ## Concrete fixtures used by witnesses and counterexamples -/

/-- The per-run statistics total, when the batch succeeded. -/
def batchTotal (b : BatchOut) : Option Nat :=
  match b.result with
  | .ok p => some p.2.total_videos
  | .error _ => none

/-- The per-run processed counter, when the batch succeeded. -/
def batchProcessed (b : BatchOut) : Option Nat :=
  match b.result with
  | .ok p => some p.2.processed_videos
  | .error _ => none

/-- An environment in which the Bilibili API resolver succeeds. -/
def envApiOk : PipelineEnv :=
  { apiSubtitles := some ("Video Subtitles\n\nSubtitles (zh)\n\n[1.00] hi")
    existingSubFiles := []
    ytdlpSubtitlesOk := true
    filesAfterDownload := []
    rawTranscript := none
    correctedTranscript := none
    audioOk := false
    whisperOk := false
    whisperText := ""
    llmResult := none }

/-- An environment in which the API yields nothing, no subtitle file
exists, and the yt-dlp subtitle download raises. -/
def envAuthFail : PipelineEnv :=
  { apiSubtitles := none
    existingSubFiles := []
    ytdlpSubtitlesOk := false
    filesAfterDownload := []
    rawTranscript := none
    correctedTranscript := none
    audioOk := false
    whisperOk := false
    whisperText := ""
    llmResult := none }

/-- An environment for a re-run after a completed whisper pass: the API
yields nothing, no subtitle file exists, the yt-dlp subtitle attempt
completes without finding files, and both transcript files are cached. -/
def envCachedPair : PipelineEnv :=
  { apiSubtitles := none
    existingSubFiles := []
    ytdlpSubtitlesOk := true
    filesAfterDownload := []
    rawTranscript := some ("raw whisper text")
    correctedTranscript := some ("corrected text")
    audioOk := false
    whisperOk := false
    whisperText := ""
    llmResult := none }

/-- A minimal video descriptor. -/
def mkVid (bvid title : String) : VideoDesc :=
  { bvid := bvid, title := title, description := "", upload_time := ""
    view_count := 0, coin_count := 0, like_count := 0
    favorite_count := 0, share_count := 0, comment_count := 0 }

/-- Three API-successful videos, for the limit fixtures. -/
def threeVids : List (VideoDesc × PipelineEnv) :=
  [(mkVid ("BV1xx411c7m1") ("T1"), envApiOk),
   (mkVid ("BV1xx411c7m2") ("T2"), envApiOk),
   (mkVid ("BV1xx411c7m3") ("T3"), envApiOk)]

/-- An expired credential store fixture: one chrome record created at
time 0. -/
def expiredStore : List (String × CredRecord) :=
  [(("chrome"), ⟨[(("SESSDATA"), ("secret"))], 0⟩)]

/-- Cookie environment holding only the expired store, with an empty
in-memory cache, no files on disk, and a successful fresh extraction. -/
def expiredCookieEnv : CookieEnv :=
  { memCache := []
    fileExists := fun _ => false
    store := some expiredStore
    now := ttlSeconds + 1
    extracted := [(("SESSDATA"), ("fresh"))] }

/-- No run of three consecutive newlines occurs in the list: the invariant
`collapseNl` establishes, used to reason about `remove_timestamps`. -/
def noRun3 : List Char → Bool
  | c1 :: c2 :: c3 :: t =>
    if c1 = '\n' ∧ c2 = '\n' ∧ c3 = '\n' then false else noRun3 (c2 :: c3 :: t)
  | _ => true

/-! ## Helper lemmas -/

lemma lookupA_updateA_ne {β : Type} (k b : String) (r : β) (hk : k ≠ b) :
    ∀ m : List (String × β), lookupA k (updateA b r m) = lookupA k m := by
  intro m
  induction m with
  | nil =>
    simp only [updateA, lookupA]
    rw [if_neg (Ne.symm hk)]
  | cons hd tl ih =>
    obtain ⟨k', v'⟩ := hd
    by_cases h : k' = b
    · subst h
      simp only [updateA, if_pos rfl, lookupA]
      rw [if_neg (Ne.symm hk), if_neg (Ne.symm hk)]
    · simp only [updateA, if_neg h, lookupA]
      by_cases h2 : k' = k
      · rw [if_pos h2, if_pos h2]
      · rw [if_neg h2, if_neg h2, ih]

lemma gvtc_api (env : PipelineEnv) (browser : Option String) (bvid : String)
    (h : truthyOpt env.apiSubtitles = true) :
    get_video_text_content env browser bvid
      = ⟨.ok env.apiSubtitles, false, false, false, false⟩ := by
  unfold get_video_text_content
  rw [if_pos h]

/-! ## Claim theorems -/

/-- C9: saving credentials for one browser leaves every other browser's
record in the persisted mapping unchanged. -/
theorem C9_save_preserves_other_browsers (m : List (String × CredRecord))
    (b k : String) (ck : List (String × String)) (now : Int) (hk : k ≠ b) :
    lookupA k (save_credentials (some m) b ck now) = lookupA k m := by
  unfold save_credentials load_all_credentials
  exact lookupA_updateA_ne k b _ hk m

theorem C9_save_preserves_other_browsers_witness :
    lookupA ("firefox")
        (save_credentials
          (some [(("chrome"), ⟨[], 0⟩), (("firefox"), ⟨[(("SESSDATA"), ("f"))], 5⟩)])
          ("chrome") [(("SESSDATA"), ("new"))] 100)
      = lookupA ("firefox")
          [(("chrome"), ⟨[], 0⟩), (("firefox"), ⟨[(("SESSDATA"), ("f"))], 5⟩)] :=
  C9_save_preserves_other_browsers _ _ _ _ _ (by decide)

/-- C7: a persisted credential record older than 30 days is invisible to
`load_cached_credentials`, and `get_browser_cookies` (with no usable
in-memory cookie file) proceeds to fresh extraction rather than reusing
the stored secrets. -/
theorem C7_expired_record_forces_fresh_extraction (env : CookieEnv)
    (m : List (String × CredRecord)) (b : String) (rec : CredRecord)
    (hstore : env.store = some m) (hrec : lookupA b m = some rec)
    (hexp : ttlSeconds < env.now - rec.timestamp)
    (hmem : lookupA b env.memCache = none) :
    load_cached_credentials env.store b env.now = none ∧
    (get_browser_cookies env b false).2 = true := by
  constructor
  · rw [hstore]
    simp only [load_cached_credentials, hrec]
    rw [if_pos hexp]
  · have hdisk : diskCacheValid env.store b env.now = false := by
      rw [hstore]
      simp only [diskCacheValid, hrec]
      simp [not_le_of_lt hexp]
    simp only [get_browser_cookies, hdisk]
    by_cases hx : env.extracted = [] <;> simp [hx, hmem]

theorem C7_expired_record_witness :
    load_cached_credentials expiredCookieEnv.store ("chrome") expiredCookieEnv.now = none ∧
    (get_browser_cookies expiredCookieEnv ("chrome") false).2 = true :=
  C7_expired_record_forces_fresh_extraction expiredCookieEnv expiredStore ("chrome")
    ⟨[(("SESSDATA"), ("secret"))], 0⟩ rfl (by decide) (by decide) rfl

/-- C6: when the platform-API resolver yields a transcript, neither the
external downloader (in either mode) nor the ASR engine is invoked, and
the API transcript is the result. -/
theorem C6_api_short_circuit (env : PipelineEnv) (browser : Option String)
    (bvid : String) (h : truthyOpt env.apiSubtitles = true) :
    (get_video_text_content env browser bvid).result = .ok env.apiSubtitles ∧
    (get_video_text_content env browser bvid).dlSubsCalled = false ∧
    (get_video_text_content env browser bvid).dlAudioCalled = false ∧
    (get_video_text_content env browser bvid).asrCalled = false := by
  rw [gvtc_api env browser bvid h]
  exact ⟨rfl, rfl, rfl, rfl⟩

theorem C6_api_short_circuit_witness :
    (get_video_text_content envApiOk none ("BV1xx411c7m1")).result = .ok envApiOk.apiSubtitles ∧
    (get_video_text_content envApiOk none ("BV1xx411c7m1")).dlSubsCalled = false ∧
    (get_video_text_content envApiOk none ("BV1xx411c7m1")).dlAudioCalled = false ∧
    (get_video_text_content envApiOk none ("BV1xx411c7m1")).asrCalled = false :=
  C6_api_short_circuit envApiOk none ("BV1xx411c7m1") (by decide)

/-- C8: with `limit = 0` over a non-empty fetched list, the batch returns
immediately: empty combined text, zero processed videos, the full list
length as the total, and no pipeline invocation (hence no API, downloader
or ASR call) for any video. -/
theorem C8_limit_zero_processes_nothing (v : VideoDesc × PipelineEnv)
    (vs : List (VideoDesc × PipelineEnv)) (browser : Option String) (d m : Bool) :
    (get_all_user_subtitles (v :: vs) browser (some 0) d m).result
        = .ok ((("", zeroStats (v :: vs).length))) ∧
    (get_all_user_subtitles (v :: vs) browser (some 0) d m).pipelineRuns = [] := by
  unfold get_all_user_subtitles
  rw [if_neg (List.cons_ne_nil v vs)]
  norm_num

lemma truthyOpt_iff (o : Option String) :
    truthyOpt o = true ↔ ∃ s, o = some s ∧ s ≠ "" := by
  cases o <;> simp [truthyOpt]

lemma bumpSource_processed (st : BatchStats) (s : String) :
    (bumpSource st s).processed_videos = st.processed_videos := by
  unfold bumpSource
  split
  · rfl
  · split <;> rfl

lemma bumpSource_total (st : BatchStats) (s : String) :
    (bumpSource st s).total_videos = st.total_videos := by
  unfold bumpSource
  split
  · rfl
  · split <;> rfl

lemma processVideos_cons_api (browser : Option String) (d m : Bool)
    (v : VideoDesc) (env : PipelineEnv) (rest : List (VideoDesc × PipelineEnv))
    (stats : BatchStats) (blocks runs : List String) (s : String)
    (hs : env.apiSubtitles = some s) (hne : s ≠ "") :
    processVideos browser d m ((v, env) :: rest) stats blocks runs
      = processVideos browser d m rest
          (bumpSource
            { stats with
              processed_videos := stats.processed_videos + 1
              videos_with_subtitles := stats.videos_with_subtitles + 1 } s)
          (blocks ++ [format_subtitle_header v d m ++ ("\n\n") ++ cleanSubtitleBlock s])
          (runs ++ [v.bvid]) := by
  have ht : truthyOpt env.apiSubtitles = true := by
    rw [hs]
    simpa [truthyOpt] using hne
  have hred : (if truthyOpt (some s) = true then some s else none) = some s := by
    simp [truthyOpt, hne]
  unfold processVideos
  rw [gvtc_api env browser v.bvid ht, hs]
  simp only [hred]
  cases rest <;> rfl

lemma processVideos_allApi (browser : Option String) (d m : Bool) :
    ∀ (items : List (VideoDesc × PipelineEnv)) (stats : BatchStats)
      (blocks runs : List String),
      (∀ p ∈ items, truthyOpt p.2.apiSubtitles = true) →
      (processVideos browser d m items stats blocks runs).err = none ∧
      (processVideos browser d m items stats blocks runs).stats.processed_videos
          = stats.processed_videos + items.length ∧
      (processVideos browser d m items stats blocks runs).stats.total_videos
          = stats.total_videos ∧
      (processVideos browser d m items stats blocks runs).runs
          = runs ++ items.map (fun p => p.1.bvid) := by
  intro items
  induction items with
  | nil =>
    intro stats blocks runs _
    simp [processVideos]
  | cons hd tl ih =>
    intro stats blocks runs hall
    obtain ⟨v, env⟩ := hd
    have ht := hall _ (List.mem_cons_self _ _)
    obtain ⟨s, hs, hne⟩ := (truthyOpt_iff _).1 ht
    rw [processVideos_cons_api browser d m v env tl stats blocks runs s hs hne]
    obtain ⟨h1, h2, h3, h4⟩ := ih _ _ _ (fun p hp => hall p (List.mem_cons_of_mem _ hp))
    refine ⟨h1, ?_, ?_, ?_⟩
    · rw [h2, bumpSource_processed]
      simp only [List.length_cons]
      omega
    · rw [h3, bumpSource_total]
    · rw [h4]
      simp

lemma runBatchLoop_ok (browser : Option String) (d m : Bool)
    (vs : List (VideoDesc × PipelineEnv))
    (hE : (processVideos browser d m vs (zeroStats vs.length) [] []).err = none) :
    batchTotal (runBatchLoop browser d m vs)
      = some (processVideos browser d m vs (zeroStats vs.length) [] []).stats.total_videos ∧
    batchProcessed (runBatchLoop browser d m vs)
      = some (processVideos browser d m vs (zeroStats vs.length) [] []).stats.processed_videos ∧
    (runBatchLoop browser d m vs).pipelineRuns
      = (processVideos browser d m vs (zeroStats vs.length) [] []).runs := by
  unfold runBatchLoop
  generalize processVideos browser d m vs (zeroStats vs.length) [] [] = lo at hE ⊢
  obtain ⟨e, st, bl, rn⟩ := lo
  simp only [LoopOut.err] at hE
  subst hE
  exact ⟨rfl, rfl, rfl⟩

/-- C4 (amended): with a positive `limit` smaller than the fetched list,
exactly `limit` videos are processed, but the recorded `total_videos` is
the *truncated* length (`limit`), not the full list length: the statistics
are initialized after truncation.  Stated for videos whose API resolver
succeeds, so every selected video processes cleanly. -/
theorem C4_limit_truncates_total (videos : List (VideoDesc × PipelineEnv))
    (browser : Option String) (d m : Bool) (l : Nat)
    (hl : 0 < l) (hlt : l < videos.length)
    (hall : ∀ p ∈ videos.take l, truthyOpt p.2.apiSubtitles = true) :
    batchTotal (get_all_user_subtitles videos browser (some (l : Int)) d m) = some l ∧
    batchProcessed (get_all_user_subtitles videos browser (some (l : Int)) d m) = some l ∧
    (get_all_user_subtitles videos browser (some (l : Int)) d m).pipelineRuns.length = l := by
  have hne : videos ≠ [] :=
    List.ne_nil_of_length_pos (lt_of_le_of_lt (Nat.zero_le l) hlt)
  have hcond : (l : Int) ≠ 0 ∧ 0 < (l : Int) ∧ (l : Int) < (videos.length : Int) :=
    ⟨by exact_mod_cast hl.ne', by exact_mod_cast hl, by exact_mod_cast hlt⟩
  have htn : ((l : Int)).toNat = l := Int.toNat_natCast l
  have hlen : (videos.take l).length = l := by
    rw [List.length_take]
    omega
  obtain ⟨hE, hP, hT, hR⟩ :=
    processVideos_allApi browser d m (videos.take l)
      (zeroStats (videos.take l).length) [] [] hall
  have hbatch : get_all_user_subtitles videos browser (some (l : Int)) d m
      = runBatchLoop browser d m (videos.take l) := by
    simp only [get_all_user_subtitles, if_neg hne, if_pos hcond, htn]
  obtain ⟨hTot, hProc, hRuns⟩ := runBatchLoop_ok browser d m (videos.take l) hE
  rw [hbatch, hTot, hProc, hRuns, hT, hP, hR, hlen]
  refine ⟨rfl, by simp [zeroStats], ?_⟩
  simp only [List.nil_append, List.length_map, hlen]

theorem C4_limit_truncates_total_witness :
    batchTotal (get_all_user_subtitles threeVids none (some ((2 : Nat) : Int)) true true)
        = some 2 ∧
    batchProcessed (get_all_user_subtitles threeVids none (some ((2 : Nat) : Int)) true true)
        = some 2 ∧
    (get_all_user_subtitles threeVids none (some ((2 : Nat) : Int)) true true).pipelineRuns.length
        = 2 :=
  C4_limit_truncates_total threeVids none true true 2 (by decide) (by decide) (by decide)

/-- C4 counterexample: for the concrete batch of 3 API-successful videos
run with limit 2, the recorded `total_videos` is 2, not the 3 the claim
requires. -/
theorem C4_total_not_full_length :
    batchTotal (get_all_user_subtitles threeVids none (some 2) true true) = some 2 ∧
    batchTotal (get_all_user_subtitles threeVids none (some 2) true true) ≠ some 3 := by
  constructor
  · rfl
  · decide

lemma string_data_append (s t : String) : (s ++ t).data = s.data ++ t.data := by
  obtain ⟨a⟩ := s
  obtain ⟨b⟩ := t
  rfl

lemma isPrefixOf_append : ∀ (n a b : List Char),
    n.isPrefixOf a = true → n.isPrefixOf (a ++ b) = true := by
  intro n
  induction n with
  | nil => intro a b _; simp [List.isPrefixOf]
  | cons c t ih =>
    intro a b h
    cases a with
    | nil => simp [List.isPrefixOf] at h
    | cons a' as =>
      simp only [List.isPrefixOf, List.cons_append, Bool.and_eq_true] at h ⊢
      exact ⟨h.1, ih as b h.2⟩

lemma containsSub_of_prefixOf (n h : List Char) (hp : n.isPrefixOf h = true) :
    containsSub n h = true := by
  cases h <;> simp [containsSub, findSub, hp]

/-- The error raised by the subtitle path when yt-dlp fails with no
browser supplied. -/
lemma gvtc_auth (env : PipelineEnv) (bvid : String)
    (hapi : truthyOpt env.apiSubtitles = false)
    (hfiles : env.existingSubFiles = [])
    (hdl : env.ytdlpSubtitlesOk = false) :
    get_video_text_content env none bvid
      = ⟨.error (("Authentication required to download subtitles for ") ++ bvid ++ (".")),
          true, false, false, false⟩ := by
  unfold get_video_text_content
  simp [hapi, hfiles, hdl]

lemma authMsg_contains (bvid : String) :
    containsSub (("Authentication required").data)
      ((("Authentication required to download subtitles for ") ++ bvid ++ (".")).data) = true := by
  apply containsSub_of_prefixOf
  rw [string_data_append, string_data_append, List.append_assoc]
  exact isPrefixOf_append _ _ _ (by decide)

lemma processVideos_cons_err_auth (browser : Option String) (d m : Bool)
    (v : VideoDesc) (env : PipelineEnv) (rest : List (VideoDesc × PipelineEnv))
    (stats : BatchStats) (blocks runs : List String) (msg : String)
    (hres : (get_video_text_content env browser v.bvid).result = .error msg)
    (hc : containsSub (("Authentication required").data) msg.data = true) :
    processVideos browser d m ((v, env) :: rest) stats blocks runs
      = ⟨some msg, stats, blocks, runs ++ [v.bvid]⟩ := by
  unfold processVideos
  simp only [hres]
  rw [if_pos hc]

lemma processVideos_abort (d m : Bool) (v : VideoDesc) (env : PipelineEnv)
    (post : List (VideoDesc × PipelineEnv))
    (hapi : truthyOpt env.apiSubtitles = false)
    (hfiles : env.existingSubFiles = [])
    (hdl : env.ytdlpSubtitlesOk = false) :
    ∀ (pre : List (VideoDesc × PipelineEnv)) (stats : BatchStats)
      (blocks runs : List String),
      (∀ p ∈ pre, truthyOpt p.2.apiSubtitles = true) →
      (processVideos none d m (pre ++ (v, env) :: post) stats blocks runs).err
          = some (("Authentication required to download subtitles for ") ++ v.bvid ++ (".")) ∧
      (processVideos none d m (pre ++ (v, env) :: post) stats blocks runs).runs
          = runs ++ pre.map (fun p => p.1.bvid) ++ [v.bvid] := by
  intro pre
  induction pre with
  | nil =>
    intro stats blocks runs _
    rw [List.nil_append,
      processVideos_cons_err_auth none d m v env post stats blocks runs _
        (by rw [gvtc_auth env v.bvid hapi hfiles hdl])
        (authMsg_contains v.bvid)]
    exact ⟨rfl, by simp⟩
  | cons hd tl ih =>
    intro stats blocks runs hall
    obtain ⟨w, wenv⟩ := hd
    have ht := hall _ (List.mem_cons_self _ _)
    obtain ⟨s, hs, hne⟩ := (truthyOpt_iff _).1 ht
    rw [List.cons_append,
      processVideos_cons_api none d m w wenv (tl ++ (v, env) :: post) stats blocks runs s hs hne]
    obtain ⟨h1, h2⟩ := ih _ _ _ (fun p hp => hall p (List.mem_cons_of_mem _ hp))
    refine ⟨h1, ?_⟩
    rw [h2]
    simp

/-- C1: when the yt-dlp subtitle download raises and no browser credential
was supplied, the per-video pipeline raises an error carrying the literal
`Authentication required` marker, and a batch run over any list containing
such a video (after videos whose API resolver succeeds) aborts with that
error, invoking the pipeline for no video beyond the failing one. -/
theorem C1_auth_error_aborts_batch (pre post : List (VideoDesc × PipelineEnv))
    (v : VideoDesc) (env : PipelineEnv) (d m : Bool)
    (hapi : truthyOpt env.apiSubtitles = false)
    (hfiles : env.existingSubFiles = [])
    (hdl : env.ytdlpSubtitlesOk = false)
    (hpre : ∀ p ∈ pre, truthyOpt p.2.apiSubtitles = true) :
    (get_video_text_content env none v.bvid).result
        = .error (("Authentication required to download subtitles for ") ++ v.bvid ++ (".")) ∧
    containsSub (("Authentication required").data)
        ((("Authentication required to download subtitles for ") ++ v.bvid ++ (".")).data) = true ∧
    (get_all_user_subtitles (pre ++ (v, env) :: post) none none d m).result
        = .error (("Authentication required to download subtitles for ") ++ v.bvid ++ (".")) ∧
    (get_all_user_subtitles (pre ++ (v, env) :: post) none none d m).pipelineRuns
        = pre.map (fun p => p.1.bvid) ++ [v.bvid] := by
  have hne : pre ++ (v, env) :: post ≠ [] := by simp
  have hloop := processVideos_abort d m v env post hapi hfiles hdl pre
    (zeroStats (pre ++ (v, env) :: post).length) [] [] hpre
  have hbatch : get_all_user_subtitles (pre ++ (v, env) :: post) none none d m
      = runBatchLoop none d m (pre ++ (v, env) :: post) := by
    simp only [get_all_user_subtitles, if_neg hne]
  refine ⟨?_, authMsg_contains v.bvid, ?_, ?_⟩
  · rw [gvtc_auth env v.bvid hapi hfiles hdl]
  · rw [hbatch]
    simp only [runBatchLoop, hloop.1]
  · rw [hbatch]
    simp only [runBatchLoop, hloop.1]
    simpa using hloop.2

theorem C1_auth_error_aborts_batch_witness :
    (get_video_text_content envAuthFail none ((mkVid ("BV1xx411c7m2") ("T2")).bvid)).result
        = .error (("Authentication required to download subtitles for ")
            ++ (mkVid ("BV1xx411c7m2") ("T2")).bvid ++ (".")) ∧
    containsSub (("Authentication required").data)
        ((("Authentication required to download subtitles for ")
            ++ (mkVid ("BV1xx411c7m2") ("T2")).bvid ++ (".")).data) = true ∧
    (get_all_user_subtitles
        ([(mkVid ("BV1xx411c7m1") ("T1"), envApiOk)]
          ++ (mkVid ("BV1xx411c7m2") ("T2"), envAuthFail)
            :: [(mkVid ("BV1xx411c7m3") ("T3"), envApiOk)]) none none true true).result
        = .error (("Authentication required to download subtitles for ")
            ++ (mkVid ("BV1xx411c7m2") ("T2")).bvid ++ (".")) ∧
    (get_all_user_subtitles
        ([(mkVid ("BV1xx411c7m1") ("T1"), envApiOk)]
          ++ (mkVid ("BV1xx411c7m2") ("T2"), envAuthFail)
            :: [(mkVid ("BV1xx411c7m3") ("T3"), envApiOk)]) none none true true).pipelineRuns
        = [(mkVid ("BV1xx411c7m1") ("T1"), envApiOk)].map (fun p => p.1.bvid)
          ++ [(mkVid ("BV1xx411c7m2") ("T2")).bvid] :=
  C1_auth_error_aborts_batch
    [(mkVid ("BV1xx411c7m1") ("T1"), envApiOk)]
    [(mkVid ("BV1xx411c7m3") ("T3"), envApiOk)]
    (mkVid ("BV1xx411c7m2") ("T2")) envAuthFail true true
    (by decide) (by decide) (by decide) (by decide)

lemma whisperStep_cached (env : PipelineEnv) (browser : Option String) (dl : Bool)
    (c : String) (hcorr : env.correctedTranscript = some c)
    (hcp : cachedPairReady env = true) :
    whisperStep env browser dl
      = ⟨.ok (some (("## Whisper Transcript (Corrected)\n") ++ c)), dl, false, false, false⟩ := by
  unfold whisperStep
  rw [if_pos hcp]
  simp only [hcorr]

lemma gvtc_cached (env : PipelineEnv) (browser : Option String) (bvid : String)
    (hapi : truthyOpt env.apiSubtitles = false)
    (hfiles : env.existingSubFiles = [])
    (hpath : (env.ytdlpSubtitlesOk = true ∧ env.filesAfterDownload = [])
      ∨ (env.ytdlpSubtitlesOk = false ∧ browser ≠ none)) :
    get_video_text_content env browser bvid = whisperStep env browser true := by
  unfold get_video_text_content
  rw [if_neg (by simp [hapi]), hfiles]
  rcases hpath with ⟨h1, h2⟩ | ⟨h1, h2⟩
  · rw [if_pos h1, h2]
  · rw [if_neg (by simp [h1])]
    match browser, h2 with
    | some b, _ => rfl

/-- C2 (amended): when the raw and corrected transcript files both exist
non-empty, a re-run that again finds no API subtitles and no downloaded
subtitle files returns the cached corrected text and invokes neither the
audio download, nor the ASR engine, nor the correction backend — but the
yt-dlp *subtitle* download attempt is still made before the cache is
consulted. -/
theorem C2_cached_rerun (env : PipelineEnv) (browser : Option String)
    (bvid : String) (r c : String)
    (hapi : truthyOpt env.apiSubtitles = false)
    (hfiles : env.existingSubFiles = [])
    (hpath : (env.ytdlpSubtitlesOk = true ∧ env.filesAfterDownload = [])
      ∨ (env.ytdlpSubtitlesOk = false ∧ browser ≠ none))
    (hraw : env.rawTranscript = some r) (hr : r ≠ "")
    (hcorr : env.correctedTranscript = some c) (hc : c ≠ "") :
    (get_video_text_content env browser bvid).result
        = .ok (some (("## Whisper Transcript (Corrected)\n") ++ c)) ∧
    (get_video_text_content env browser bvid).dlAudioCalled = false ∧
    (get_video_text_content env browser bvid).asrCalled = false ∧
    (get_video_text_content env browser bvid).llmCalled = false ∧
    (get_video_text_content env browser bvid).dlSubsCalled = true := by
  have hcp : cachedPairReady env = true := by
    simp [cachedPairReady, hraw, hcorr, hr, hc]
  rw [gvtc_cached env browser bvid hapi hfiles hpath,
    whisperStep_cached env browser true c hcorr hcp]
  exact ⟨rfl, rfl, rfl, rfl, rfl⟩

theorem C2_cached_rerun_witness :
    (get_video_text_content envCachedPair none ("BV1xx411c7m4")).result
        = .ok (some (("## Whisper Transcript (Corrected)\n") ++ ("corrected text"))) ∧
    (get_video_text_content envCachedPair none ("BV1xx411c7m4")).dlAudioCalled = false ∧
    (get_video_text_content envCachedPair none ("BV1xx411c7m4")).asrCalled = false ∧
    (get_video_text_content envCachedPair none ("BV1xx411c7m4")).llmCalled = false ∧
    (get_video_text_content envCachedPair none ("BV1xx411c7m4")).dlSubsCalled = true :=
  C2_cached_rerun envCachedPair none ("BV1xx411c7m4") ("raw whisper text") ("corrected text")
    (by decide) (by decide) (.inl ⟨by decide, by decide⟩)
    (by decide) (by decide) (by decide) (by decide)

/-- C2 counterexample: on a re-run with both transcript files cached, the
external downloader *is* invoked again (for the subtitle attempt), even
though the cached corrected text is returned: the claim's "neither the
external downloader nor the ASR engine is invoked" fails on its downloader
half. -/
theorem C2_downloader_invoked_on_rerun :
    (get_video_text_content envCachedPair none ("BV1xx411c7m4")).dlSubsCalled = true ∧
    (get_video_text_content envCachedPair none ("BV1xx411c7m4")).result
        = .ok (some ("## Whisper Transcript (Corrected)\ncorrected text")) := by
  exact ⟨rfl, rfl⟩

lemma findSub_first : ∀ (h n : List Char) (i : Nat), findSub n h = some i →
    ∀ j, j < i → n.isPrefixOf (h.drop j) = false := by
  intro h
  induction h with
  | nil =>
    intro n i hf j hj
    unfold findSub at hf
    split at hf
    · cases hf; omega
    · cases hf
  | cons c t ih =>
    intro n i hf j hj
    unfold findSub at hf
    split at hf
    · cases hf; omega
    · obtain ⟨i', hi', rfl⟩ : ∃ i', findSub n t = some i' ∧ i = i' + 1 := by
        cases hft : findSub n t with
        | none => rw [hft] at hf; cases hf
        | some k => rw [hft] at hf; cases hf; exact ⟨k, rfl, rfl⟩
      cases j with
      | zero =>
        have hnp : n.isPrefixOf (c :: t) = false := by
          cases hb : n.isPrefixOf (c :: t)
          · rfl
          · exact absurd hb (by assumption)
        exact hnp
      | succ j' =>
        exact ih n i' hi' j' (by omega)

lemma containsSub_ex : ∀ (h n : List Char), containsSub n h = true →
    ∃ j, n.isPrefixOf (h.drop j) = true := by
  intro h
  induction h with
  | nil =>
    intro n hc
    by_cases hp : n.isPrefixOf ([] : List Char) = true
    · exact ⟨0, hp⟩
    · unfold containsSub findSub at hc
      rw [if_neg hp] at hc
      simp at hc
  | cons c t ih =>
    intro n hc
    by_cases hp : n.isPrefixOf (c :: t) = true
    · exact ⟨0, hp⟩
    · unfold containsSub findSub at hc
      rw [if_neg hp] at hc
      obtain ⟨j, hj⟩ := ih n (by simpa [containsSub] using hc)
      exact ⟨j + 1, hj⟩

lemma containsSub_intro : ∀ (j : Nat) (h n : List Char),
    n.isPrefixOf (h.drop j) = true → containsSub n h = true := by
  intro j
  induction j with
  | zero => intro h n hp; exact containsSub_of_prefixOf n h (by simpa using hp)
  | succ j' ih =>
    intro h n hp
    cases h with
    | nil => exact containsSub_of_prefixOf n [] (by simpa using hp)
    | cons c t =>
      have := ih t n (by simpa using hp)
      unfold containsSub findSub
      split
      · rfl
      · simpa [containsSub] using this

lemma prefixOf_of_take (n l : List Char) (m : Nat)
    (h : n.isPrefixOf (l.take m) = true) : n.isPrefixOf l = true := by
  rw [← List.take_append_drop m l]
  exact isPrefixOf_append _ _ _ h

lemma isPrefixOf_nil_imp (n : List Char) (h : n.isPrefixOf ([] : List Char) = true) :
    n = [] := by
  cases n with
  | nil => rfl
  | cons c t => simp [List.isPrefixOf] at h

lemma dropTrail_prefix : ∀ u : List Char, ∃ t, dropTrail u ++ t = u := by
  intro u
  induction u with
  | nil => exact ⟨[], rfl⟩
  | cons c cs ih =>
    unfold dropTrail
    split
    · exact ⟨c :: cs, rfl⟩
    · obtain ⟨t, ht⟩ := ih
      exact ⟨t, by simp [ht]⟩

lemma drop_append_len : ∀ (a b : List Char) (j : Nat),
    (a ++ b).drop (a.length + j) = b.drop j := by
  intro a
  induction a with
  | nil => intro b j; simp
  | cons c t ih =>
    intro b j
    rw [List.cons_append, List.length_cons, Nat.succ_add, List.drop_succ_cons]
    exact ih b j

lemma prefixOf_drop_append (n a t : List Char) (j : Nat)
    (h : n.isPrefixOf (a.drop j) = true) : n.isPrefixOf ((a ++ t).drop j) = true := by
  by_cases hj : j ≤ a.length
  · rw [List.drop_append_of_le_length hj]
    exact isPrefixOf_append _ _ _ h
  · have ha : a.drop j = [] := by
      rw [List.drop_eq_nil_iff]
      omega
    rw [ha] at h
    rw [isPrefixOf_nil_imp n h]
    simp [List.isPrefixOf]

lemma containsSub_dropTrail (n u : List Char)
    (h : containsSub n (dropTrail u) = true) : containsSub n u = true := by
  obtain ⟨t, ht⟩ := dropTrail_prefix u
  obtain ⟨j, hj⟩ := containsSub_ex _ n h
  rw [← ht]
  exact containsSub_intro j _ n (prefixOf_drop_append n _ t j hj)

lemma prefixOf_drop_right (n a b : List Char) (j : Nat)
    (h : n.isPrefixOf (b.drop j) = true) :
    n.isPrefixOf ((a ++ b).drop (a.length + j)) = true := by
  rw [drop_append_len]
  exact h

lemma containsSub_dropWhile (n u : List Char) (p : Char → Bool)
    (h : containsSub n (u.dropWhile p) = true) : containsSub n u = true := by
  obtain ⟨j, hj⟩ := containsSub_ex _ n h
  have h2 := prefixOf_drop_right n (u.takeWhile p) (u.dropWhile p) j hj
  rw [List.takeWhile_append_dropWhile] at h2
  exact containsSub_intro _ _ n h2

lemma containsSub_stripC (n x : List Char)
    (h : containsSub n (stripC x) = true) : containsSub n x = true := by
  unfold stripC at h
  exact containsSub_dropWhile n x isSpaceC (containsSub_dropTrail n _ h)

lemma drop_take_comm : ∀ (l : List Char) (i j : Nat),
    (l.take i).drop j = (l.drop j).take (i - j) := by
  intro l
  induction l with
  | nil => intro i j; simp
  | cons c t ih =>
    intro i j
    cases i with
    | zero => simp
    | succ i' =>
      cases j with
      | zero => simp
      | succ j' => simpa [Nat.succ_sub_succ] using ih i' j'

lemma containsSub_stripC_take_findSub (n parts : List Char) (i : Nat) (hn : n ≠ [])
    (hf : findSub n parts = some i) :
    containsSub n (stripC (parts.take i)) = false := by
  cases hcon : containsSub n (stripC (parts.take i)) with
  | false => rfl
  | true =>
    exfalso
    have h1 : containsSub n (parts.take i) = true := containsSub_stripC n _ hcon
    obtain ⟨j, hj⟩ := containsSub_ex _ n h1
    have hjlt : j < i := by
      by_contra hge
      push_neg at hge
      have hnil : (parts.take i).drop j = [] := by
        rw [List.drop_eq_nil_iff]
        have := List.length_take i parts
        omega
      rw [hnil] at hj
      exact hn (isPrefixOf_nil_imp n hj)
    have hp : n.isPrefixOf (parts.drop j) = true := by
      rw [drop_take_comm] at hj
      exact prefixOf_of_take n _ _ hj
    have hno := findSub_first parts n i hf j hjlt
    simp [hp] at hno

/-- C3 (amended): when either marker is missing the whole reply is taken as
the corrected transcript with empty corrections; when both markers occur,
the extracted corrected text never contains `KEY_CORRECTIONS:` — but it may
be empty (and may contain `CORRECTED_TRANSCRIPT:`), contrary to the claim's
"non-empty, contains neither marker". -/
theorem C3_marker_split (full : List Char) :
    (¬ (containsSub markerC full = true ∧ containsSub markerK full = true) →
      parse_llm_sections full = (full, [])) ∧
    (containsSub markerC full = true → containsSub markerK full = true →
      containsSub markerK (parse_llm_sections full).1 = false) := by
  constructor
  · intro h
    unfold parse_llm_sections
    rw [if_neg h]
  · intro h1 h2
    unfold parse_llm_sections
    rw [if_pos ⟨h1, h2⟩]
    obtain ⟨i, hi⟩ := Option.isSome_iff_exists.mp h1
    simp only [splitFirst, hi]
    by_cases hk : containsSub markerK (full.drop (i + markerC.length)) = true
    · rw [if_pos hk]
      obtain ⟨i2, hi2⟩ := Option.isSome_iff_exists.mp hk
      simp only [splitFirst, hi2]
      exact containsSub_stripC_take_findSub markerK _ i2 (by decide) hi2
    · rw [if_neg hk]
      decide

theorem C3_marker_split_witness :
    parse_llm_sections (("no markers here").data) = ((("no markers here").data), []) ∧
    containsSub markerK
        (parse_llm_sections
          (("CORRECTED_TRANSCRIPT: good text KEY_CORRECTIONS: one note").data)).1 = false :=
  ⟨(C3_marker_split _).1 (by decide), (C3_marker_split _).2 (by decide) (by decide)⟩

/-- C3 counterexample: the reply consisting of the two adjacent markers
contains both markers, yet the extracted corrected text is empty — the
claim's "non-empty" fails. -/
theorem C3_empty_corrected_text :
    containsSub markerC (("CORRECTED_TRANSCRIPT:KEY_CORRECTIONS:").data) = true ∧
    containsSub markerK (("CORRECTED_TRANSCRIPT:KEY_CORRECTIONS:").data) = true ∧
    (parse_llm_sections (("CORRECTED_TRANSCRIPT:KEY_CORRECTIONS:").data)).1 = [] := by
  decide

lemma takeWhile_app_all (p : Char → Bool) : ∀ (a b : List Char),
    (∀ x ∈ a, p x = true) → (a ++ b).takeWhile p = a ++ b.takeWhile p := by
  intro a
  induction a with
  | nil => intro b _; simp
  | cons c t ih =>
    intro b h
    rw [List.cons_append, List.takeWhile_cons_of_pos (h c (List.mem_cons_self _ _)),
      ih b (fun x hx => h x (List.mem_cons_of_mem _ hx)), List.cons_append]

lemma dropWhile_app_all (p : Char → Bool) : ∀ (a b : List Char),
    (∀ x ∈ a, p x = true) → (a ++ b).dropWhile p = b.dropWhile p := by
  intro a
  induction a with
  | nil => intro b _; simp
  | cons c t ih =>
    intro b h
    rw [List.cons_append, List.dropWhile_cons_of_pos (h c (List.mem_cons_self _ _)),
      ih b (fun x hx => h x (List.mem_cons_of_mem _ hx))]

lemma takeWhile_all_self (p : Char → Bool) (l : List Char)
    (h : ∀ x ∈ l, p x = true) : l.takeWhile p = l := by
  have := takeWhile_app_all p l [] h
  simpa using this

lemma dropWhile_all_nil (p : Char → Bool) (l : List Char)
    (h : ∀ x ∈ l, p x = true) : l.dropWhile p = [] := by
  have := dropWhile_app_all p l [] h
  simpa using this

lemma filter_all_self (p : Char → Bool) (l : List Char)
    (h : ∀ x ∈ l, p x = true) : l.filter p = l := by
  induction l with
  | nil => rfl
  | cons c t ih =>
    rw [List.filter_cons_of_pos (h c (List.mem_cons_self _ _)),
      ih (fun x hx => h x (List.mem_cons_of_mem _ hx))]

lemma splitChar_found (c : Char) (a r : List Char) (ha : ∀ x ∈ a, x ≠ c) :
    splitChar c (a ++ c :: r) = (a, some r) := by
  have ha' : ∀ x ∈ a, (decide (x ≠ c)) = true := fun x hx => decide_eq_true (ha x hx)
  unfold splitChar
  rw [dropWhile_app_all _ a (c :: r) ha', List.dropWhile_cons_of_neg (by simp)]
  rw [takeWhile_app_all _ a (c :: r) ha', List.takeWhile_cons_of_neg (by simp)]
  simp

lemma splitChar_absent (c : Char) (l : List Char) (h : ∀ x ∈ l, x ≠ c) :
    splitChar c l = (l, none) := by
  have h' : ∀ x ∈ l, (decide (x ≠ c)) = true := fun x hx => decide_eq_true (h x hx)
  unfold splitChar
  rw [dropWhile_all_nil _ l h']

lemma schemeSplit_bili (L : List Char) :
    schemeSplit ((("https://www.bilibili.com/video/").data) ++ L)
      = ("//www.bilibili.com/video/").data ++ L := by
  have e1 : (("https://www.bilibili.com/video/").data) ++ L
      = ("https").data ++ ':' :: ((("//www.bilibili.com/video/").data) ++ L) := rfl
  unfold schemeSplit
  rw [e1, splitChar_found ':' (("https").data) _ (by decide)]
  rfl

lemma netlocSplit_slashslash (r : List Char) :
    netlocSplit ('/' :: '/' :: r)
      = r.dropWhile (fun c => c ≠ '/' ∧ c ≠ '?' ∧ c ≠ '#') := rfl

lemma netlocSplit_bili (L : List Char) :
    netlocSplit ((("//www.bilibili.com/video/").data) ++ L) = (("/video/").data) ++ L := by
  have e2 : (("//www.bilibili.com/video/").data) ++ L
      = '/' :: '/' :: ((("www.bilibili.com").data) ++ '/' :: ((("video/").data) ++ L)) := rfl
  rw [e2, netlocSplit_slashslash,
    dropWhile_app_all _ _ _ (by decide), List.dropWhile_cons_of_neg (by decide)]
  rfl

lemma paramsSplit_bili (L : List Char) (hs : ∀ x ∈ L, x ≠ '/') (hsc : ∀ x ∈ L, x ≠ ';') :
    paramsSplit ((("/video/").data) ++ L) = (("/video/").data) ++ L := by
  have hrev : (((("/video/").data) ++ L)).reverse = L.reverse ++ '/' :: ("oediv/").data := by
    rw [List.reverse_append]
    rfl
  have hLrev : ∀ x ∈ L.reverse, (decide (x ≠ '/')) = true := fun x hx =>
    decide_eq_true (hs x (List.mem_reverse.mp hx))
  unfold paramsSplit
  rw [hrev, dropWhile_app_all _ _ _ hLrev, takeWhile_app_all _ _ _ hLrev,
    List.dropWhile_cons_of_neg (by decide), List.takeWhile_cons_of_neg (by decide)]
  rw [List.append_nil, List.reverse_reverse,
    takeWhile_all_self _ L (fun x hx => decide_eq_true (hsc x hx))]
  rfl

lemma urlparse_path_bili (L : List Char)
    (hch : ∀ c ∈ L, c ≠ '/' ∧ c ≠ '?' ∧ c ≠ '#' ∧ c ≠ ';')
    (hws : ∀ c ∈ L, c ≠ '\t' ∧ c ≠ '\r' ∧ c ≠ '\n') :
    urlparse_path ((("https://www.bilibili.com/video/").data) ++ L)
      = (("/video/").data) ++ L := by
  have hhash : ∀ x ∈ (("/video/").data) ++ L, x ≠ '#' := by
    intro x hx
    rcases List.mem_append.mp hx with h | h
    · exact (show ∀ y ∈ ("/video/").data, y ≠ '#' by decide) x h
    · exact (hch x h).2.2.1
  have hq : ∀ x ∈ (("/video/").data) ++ L, x ≠ '?' := by
    intro x hx
    rcases List.mem_append.mp hx with h | h
    · exact (show ∀ y ∈ ("/video/").data, y ≠ '?' by decide) x h
    · exact (hch x h).2.1
  have e0 : (("https://www.bilibili.com/video/").data) ++ L
      = 'h' :: ((("ttps://www.bilibili.com/video/").data) ++ L) := rfl
  unfold urlparse_path
  rw [e0, List.dropWhile_cons_of_neg (by decide), ← e0]
  rw [List.filter_append, filter_all_self notUnsafeByte _ (by decide),
    filter_all_self notUnsafeByte L (fun x hx => by
      unfold notUnsafeByte
      exact decide_eq_true (hws x hx))]
  rw [schemeSplit_bili, netlocSplit_bili, splitChar_absent '#' _ hhash]
  rw [show (((("/video/").data) ++ L, (none : Option (List Char))).1)
      = (("/video/").data) ++ L from rfl]
  rw [splitChar_absent '?' _ hq]
  rw [show (((("/video/").data) ++ L, (none : Option (List Char))).1)
      = (("/video/").data) ++ L from rfl]
  exact paramsSplit_bili L (fun x hx => (hch x hx).1) (fun x hx => (hch x hx).2.2.2)

lemma rstripSlash_bili (L : List Char) (hne : L ≠ []) (hs : ∀ x ∈ L, x ≠ '/') :
    rstripSlash ((("/video/").data) ++ L) = (("/video/").data) ++ L := by
  have hrev : (((("/video/").data) ++ L)).reverse = L.reverse ++ '/' :: ("oediv/").data := by
    rw [List.reverse_append]
    rfl
  obtain ⟨c, t, hct⟩ : ∃ c t, L.reverse = c :: t := by
    cases hLr : L.reverse with
    | nil => exact absurd (List.reverse_eq_nil_iff.mp hLr) hne
    | cons c t => exact ⟨c, t, rfl⟩
  have hc : c ∈ L := List.mem_reverse.mp (hct ▸ List.mem_cons_self c t)
  unfold rstripSlash
  rw [hrev, hct, List.cons_append,
    List.dropWhile_cons_of_neg (by simp [decide_eq_false (hs c hc)]), ← List.cons_append,
    ← hct, ← hrev, List.reverse_reverse]

lemma lastSlashComponent_bili (L : List Char) (hs : ∀ x ∈ L, x ≠ '/') :
    lastSlashComponent ((("/video/").data) ++ L) = L := by
  have hrev : (((("/video/").data) ++ L)).reverse = L.reverse ++ '/' :: ("oediv/").data := by
    rw [List.reverse_append]
    rfl
  have hLrev : ∀ x ∈ L.reverse, (decide (x ≠ '/')) = true := fun x hx =>
    decide_eq_true (hs x (List.mem_reverse.mp hx))
  unfold lastSlashComponent
  rw [hrev, takeWhile_app_all _ _ _ hLrev, List.takeWhile_cons_of_neg (by decide),
    List.append_nil, List.reverse_reverse]

lemma string_mk_data (s : String) : String.mk s.data = s := by
  obtain ⟨l⟩ := s
  rfl

/-- C10 (amended): for an identifier that starts with uppercase `BV`, has
length at least 12, and contains none of the URL metacharacters
`/`, `?`, `#`, `;` nor the characters tab, CR, LF (which `urlsplit`
removes from a URL before parsing), extracting the BVID from the assembled
URL returns the identifier.  For ids starting with lowercase `bv` (which
`ensure_bilibili_url` also expands) the extraction raises instead, because
`_extract_bvid` only accepts path components starting with uppercase `BV`;
for ids containing tab/CR/LF the round trip yields the byte-stripped BVID
rather than the identifier. -/
theorem C10_bvid_url_roundtrip (id : String)
    (hBV : (("BV").data).isPrefixOf id.data = true)
    (hlen : 12 ≤ id.data.length)
    (hch : ∀ c ∈ id.data, c ≠ '/' ∧ c ≠ '?' ∧ c ≠ '#' ∧ c ≠ ';')
    (hws : ∀ c ∈ id.data, c ≠ '\t' ∧ c ≠ '\r' ∧ c ≠ '\n') :
    _extract_bvid (ensure_bilibili_url id) = some id := by
  have hurl : ensure_bilibili_url id = ("https://www.bilibili.com/video/") ++ id := by
    unfold ensure_bilibili_url
    rw [if_pos ⟨Or.inl hBV, hlen⟩]
  have hne : id.data ≠ [] := by
    intro h
    rw [h] at hlen
    simp at hlen
  have hcand : candidateBvid (("https://www.bilibili.com/video/") ++ id) = id.data := by
    unfold candidateBvid
    rw [string_data_append, urlparse_path_bili id.data hch hws,
      rstripSlash_bili id.data hne (fun x hx => (hch x hx).1),
      lastSlashComponent_bili id.data (fun x hx => (hch x hx).1)]
  rw [hurl]
  unfold _extract_bvid
  rw [if_neg (by rw [string_data_append]; simp [List.isPrefixOf]), hcand, if_pos hBV,
    string_mk_data]

theorem C10_bvid_url_roundtrip_witness :
    _extract_bvid (ensure_bilibili_url ("BV1xx411c7mD")) = some ("BV1xx411c7mD") :=
  C10_bvid_url_roundtrip ("BV1xx411c7mD") (by decide) (by decide) (by decide) (by decide)

/-- C10 counterexample: the lowercase identifier `bv1234567890` starts with
`bv` and has length 12, so the claim asserts the round trip returns it; but
`_extract_bvid` on the assembled URL raises `ValueError` (modelled `none`). -/
theorem C10_lowercase_bv_fails :
    (("bv1234567890").data.length = 12
        ∧ (("bv").data).isPrefixOf (("bv1234567890").data) = true) ∧
    _extract_bvid (ensure_bilibili_url ("bv1234567890")) = none ∧
    _extract_bvid (ensure_bilibili_url ("bv1234567890")) ≠ some ("bv1234567890") := by
  refine ⟨by decide, by decide, by decide⟩

lemma noRun3_three (c1 c2 c3 : Char) (t : List Char) :
    noRun3 (c1 :: c2 :: c3 :: t)
      = if c1 = '\n' ∧ c2 = '\n' ∧ c3 = '\n' then false else noRun3 (c2 :: c3 :: t) := by
  rfl

lemma noRun3_tail (c : Char) (l : List Char) (h : noRun3 (c :: l) = true) :
    noRun3 l = true := by
  cases l with
  | nil => rfl
  | cons d t =>
    cases t with
    | nil => rfl
    | cons e u =>
      rw [noRun3_three] at h
      split at h
      · cases h
      · exact h

lemma noRun3_cons_ne (c : Char) (l : List Char) (hc : c ≠ '\n')
    (h : noRun3 l = true) : noRun3 (c :: l) = true := by
  cases l with
  | nil => rfl
  | cons d t =>
    cases t with
    | nil => rfl
    | cons e u =>
      rw [noRun3_three, if_neg (fun hh => hc hh.1)]
      exact h

lemma noRun3_append_left : ∀ a b : List Char, noRun3 (a ++ b) = true → noRun3 a = true := by
  intro a
  induction a with
  | nil => intro b _; rfl
  | cons x xs ih =>
    intro b h
    cases xs with
    | nil => rfl
    | cons y ys =>
      cases ys with
      | nil => rfl
      | cons z zs =>
        simp only [List.cons_append] at h
        by_cases hxyz : x = '\n' ∧ y = '\n' ∧ z = '\n'
        · rw [noRun3_three, if_pos hxyz] at h
          cases h
        · rw [noRun3_three, if_neg hxyz] at h
          rw [noRun3_three, if_neg hxyz]
          exact ih b h

lemma noRun3_append_right : ∀ a b : List Char, noRun3 (a ++ b) = true → noRun3 b = true := by
  intro a
  induction a with
  | nil => intro b h; exact h
  | cons x xs ih =>
    intro b h
    exact ih b (noRun3_tail x _ (by simpa using h))

lemma noRun3_dropWhile (p : Char → Bool) (l : List Char) (h : noRun3 l = true) :
    noRun3 (l.dropWhile p) = true := by
  apply noRun3_append_right (l.takeWhile p) (l.dropWhile p)
  rw [List.takeWhile_append_dropWhile]
  exact h

lemma noRun3_dropTrail (l : List Char) (h : noRun3 l = true) :
    noRun3 (dropTrail l) = true := by
  obtain ⟨t, ht⟩ := dropTrail_prefix l
  exact noRun3_append_left _ t (by rw [ht]; exact h)

lemma noRun3_stripC (l : List Char) (h : noRun3 l = true) :
    noRun3 (stripC l) = true :=
  noRun3_dropTrail _ (noRun3_dropWhile _ _ h)

lemma noRun3_replicate (j : Nat) (hj : j ≤ 2) :
    noRun3 (List.replicate j '\n') = true := by
  interval_cases j <;> decide

lemma noRun3_replicate_cons (j : Nat) (hj : j ≤ 2) (c : Char) (l : List Char)
    (hc : c ≠ '\n') (h : noRun3 (c :: l) = true) :
    noRun3 (List.replicate j '\n' ++ c :: l) = true := by
  interval_cases j
  · simpa using h
  · show noRun3 ('\n' :: c :: l) = true
    cases l with
    | nil => rfl
    | cons d t =>
      rw [noRun3_three, if_neg (fun hh => hc hh.2.1)]
      exact h
  · show noRun3 ('\n' :: '\n' :: c :: l) = true
    rw [noRun3_three, if_neg (fun hh => hc hh.2.2)]
    cases l with
    | nil => rfl
    | cons d t =>
      rw [noRun3_three, if_neg (fun hh => hc hh.2.1)]
      exact h

lemma collapseGo_cons_nl (k : Nat) (cs : List Char) :
    collapseGo k ('\n' :: cs) = collapseGo (k + 1) cs := by
  simp [collapseGo]

lemma collapseGo_cons_ne (k : Nat) (c : Char) (cs : List Char) (hc : c ≠ '\n') :
    collapseGo k (c :: cs)
      = List.replicate (if 3 ≤ k then 2 else k) '\n' ++ c :: collapseGo 0 cs := by
  simp [collapseGo, hc]

lemma dropTrail_cons (c : Char) (cs : List Char) :
    dropTrail (c :: cs)
      = if dropTrail cs = [] ∧ isSpaceC c = true then [] else c :: dropTrail cs := by
  rfl

lemma noRun3_collapseGo : ∀ (w : List Char) (k : Nat), noRun3 (collapseGo k w) = true := by
  intro w
  induction w with
  | nil =>
    intro k
    simp only [collapseGo]
    exact noRun3_replicate _ (by split <;> omega)
  | cons c cs ih =>
    intro k
    by_cases hcnl : c = '\n'
    · simp only [collapseGo]
      rw [if_pos hcnl]
      exact ih (k + 1)
    · simp only [collapseGo]
      rw [if_neg hcnl]
      exact noRun3_replicate_cons _ (by split <;> omega) c _ hcnl
        (noRun3_cons_ne c _ hcnl (ih 0))

lemma noRun3_collapseNl (w : List Char) : noRun3 (collapseNl w) = true :=
  noRun3_collapseGo w 0

lemma collapseGo_fix : ∀ (w : List Char) (k : Nat), k ≤ 2 →
    noRun3 (List.replicate k '\n' ++ w) = true →
    collapseGo k w = List.replicate k '\n' ++ w := by
  intro w
  induction w with
  | nil =>
    intro k hk _
    simp only [collapseGo, List.append_nil]
    rw [if_neg (by omega : ¬ 3 ≤ k)]
  | cons c cs ih =>
    intro k hk h
    by_cases hcnl : c = '\n'
    · subst hcnl
      have hrepl : List.replicate k '\n' ++ '\n' :: cs
          = List.replicate (k + 1) '\n' ++ cs := by
        rw [List.append_cons, ← List.replicate_succ']
      have hk1 : k + 1 ≤ 2 := by
        by_contra hgt
        have hk2 : k = 2 := by omega
        subst hk2
        have h3 : noRun3 ('\n' :: '\n' :: '\n' :: cs) = true := by
          simpa [List.replicate] using h
        rw [noRun3_three, if_pos ⟨rfl, rfl, rfl⟩] at h3
        cases h3
      rw [collapseGo_cons_nl, ih (k + 1) hk1 (by rw [← hrepl]; exact h), hrepl]
    · have hcs : noRun3 cs = true :=
        noRun3_tail c _ (noRun3_append_right _ _ h)
      simp only [collapseGo]
      rw [if_neg hcnl, if_neg (by omega : ¬ 3 ≤ k),
        ih 0 (by omega) (by simpa using hcs)]
      simp

lemma dropTrail_idem : ∀ l : List Char, dropTrail (dropTrail l) = dropTrail l := by
  intro l
  induction l with
  | nil => rfl
  | cons c cs ih =>
    by_cases h : dropTrail cs = [] ∧ isSpaceC c = true
    · have e : dropTrail (c :: cs) = [] := by
        rw [dropTrail_cons]
        exact if_pos h
      rw [e]
      rfl
    · have e : dropTrail (c :: cs) = c :: dropTrail cs := by
        rw [dropTrail_cons]
        exact if_neg h
      rw [e, dropTrail_cons, ih, if_neg h]

lemma dropTrail_head (c : Char) (cs : List Char) :
    dropTrail (c :: cs) = [] ∨ ∃ r, dropTrail (c :: cs) = c :: r := by
  by_cases h : dropTrail cs = [] ∧ isSpaceC c = true
  · left
    rw [dropTrail_cons]
    exact if_pos h
  · right
    refine ⟨dropTrail cs, ?_⟩
    rw [dropTrail_cons]
    exact if_neg h

lemma dropWhile_head_not (p : Char → Bool) : ∀ l : List Char,
    l.dropWhile p = [] ∨ ∃ c t, l.dropWhile p = c :: t ∧ p c = false := by
  intro l
  induction l with
  | nil => left; rfl
  | cons c cs ih =>
    by_cases h : p c = true
    · rw [List.dropWhile_cons_of_pos h]
      exact ih
    · right
      have hf : p c = false := by
        cases hb : p c
        · rfl
        · exact absurd hb h
      exact ⟨c, cs, List.dropWhile_cons_of_neg (by simp [hf]), hf⟩

lemma stripC_idem (l : List Char) : stripC (stripC l) = stripC l := by
  unfold stripC
  rcases dropWhile_head_not isSpaceC l with h | ⟨c, t, hct, hc⟩
  · rw [h]
    rfl
  · rw [hct]
    rcases dropTrail_head c t with h2 | ⟨r, hr⟩
    · rw [h2]
      rfl
    · rw [hr, List.dropWhile_cons_of_neg (by simp [hc])]
      have := dropTrail_idem (c :: t)
      rw [hr] at this
      exact this

/-- C5 (amended): `remove_timestamps` is idempotent at every input whose
output is fixed by all four timestamp-substitution passes (the newline
collapsing and stripping are always fixed on outputs); it is *not*
idempotent for every string, because removing a bracketed-seconds marker
can splice the surrounding text into a new bracketed-ASR timestamp that
only a second pass removes. -/
theorem C5_idempotent_when_output_clean (s : String)
    (h1 : subPat (unanchored matchP1) ((remove_timestamps s).data)
        = (remove_timestamps s).data)
    (h2 : subPat (anchored matchP2) ((remove_timestamps s).data)
        = (remove_timestamps s).data)
    (h3 : subPat (anchored matchP3) ((remove_timestamps s).data)
        = (remove_timestamps s).data)
    (h4 : subPat (unanchored matchP4) ((remove_timestamps s).data)
        = (remove_timestamps s).data) :
    remove_timestamps (remove_timestamps s) = remove_timestamps s := by
  have hy : (remove_timestamps s).data
      = stripC (collapseNl (subPat (unanchored matchP4) (subPat (anchored matchP3)
          (subPat (anchored matchP2) (subPat (unanchored matchP1) s.data))))) := rfl
  have hnr : noRun3 ((remove_timestamps s).data) = true := by
    rw [hy]
    exact noRun3_stripC _ (noRun3_collapseNl _)
  have hcol : collapseNl ((remove_timestamps s).data) = (remove_timestamps s).data := by
    have := collapseGo_fix ((remove_timestamps s).data) 0 (by omega) (by simpa using hnr)
    simpa [collapseNl] using this
  have hstr : stripC ((remove_timestamps s).data) = (remove_timestamps s).data := by
    rw [hy]
    exact stripC_idem _
  have hout : remove_timestamps (remove_timestamps s)
      = String.mk (stripC (collapseNl (subPat (unanchored matchP4)
          (subPat (anchored matchP3) (subPat (anchored matchP2)
            (subPat (unanchored matchP1) ((remove_timestamps s).data))))))) := rfl
  rw [hout, h1, h2, h3, h4, hcol, hstr, string_mk_data]

theorem C5_idempotent_when_output_clean_witness :
    remove_timestamps (remove_timestamps ("a[0.5]b")) = remove_timestamps ("a[0.5]b") :=
  C5_idempotent_when_output_clean ("a[0.5]b") rfl rfl rfl rfl

/-- C5 counterexample: on `"[12:34.567 --[0.5]> 01:23.456] a"` the first
pass removes only the bracketed-seconds marker `[0.5]`, splicing together a
bracketed-ASR timestamp that a second pass then removes — so
`remove_timestamps` is not idempotent on all strings. -/
theorem C5_not_idempotent :
    remove_timestamps (remove_timestamps ("[12:34.567 --[0.5]> 01:23.456] a"))
      ≠ remove_timestamps ("[12:34.567 --[0.5]> 01:23.456] a") := by
  have e1 : remove_timestamps ("[12:34.567 --[0.5]> 01:23.456] a")
      = ("[12:34.567 --> 01:23.456] a") := rfl
  rw [e1]
  have e2 : remove_timestamps ("[12:34.567 --> 01:23.456] a") = ("a") := rfl
  rw [e2]
  decide

end BA
